import Mathlib

/-!
Verification development for the pycronofy client library.

The file shallowly embeds `pycronofy/client.py` (the only source file
available) in Lean 4.  HTTP transport is modelled by passing the remote
response as an explicit argument and returning the request that the code
builds, so that every network interaction of a call is visible in its
result.  Collaborator modules of the repository that are not available as
source (`auth.py`, `settings.py`, `datetime_utils.py`, `pagination.py`,
`request_handler.py`) are modelled from the specification; each such
definition carries a doc comment saying so.
-/

namespace Pycronofy

/-- Python runtime values as they occur in the client: JSON scalars,
native `datetime.date` / `datetime.datetime` objects, and the string
tuples used for calendar-id filters. -/
inductive PyVal where
  | null : PyVal
  | str : String → PyVal
  | num : Int → PyVal
  | bool : Bool → PyVal
  | date : Nat → Nat → Nat → PyVal
  | datetime : Nat → Nat → Nat → Nat → Nat → Nat → PyVal
  | strs : List String → PyVal
  deriving Repr, DecidableEq

/-- Zero-padded two-digit decimal rendering, as `datetime.isoformat` uses. -/
def pad2 (n : Nat) : String :=
  if n < 10 then "0" ++ toString n else toString n

/-- Zero-padded four-digit decimal rendering for years. -/
def pad4 (n : Nat) : String :=
  if n < 10 then "000" ++ toString n
  else if n < 100 then "00" ++ toString n
  else if n < 1000 then "0" ++ toString n
  else toString n

/-- ISO-8601 rendering of a native date value: `YYYY-MM-DD`. -/
def isoOfDate (y m d : Nat) : String :=
  pad4 y ++ "-" ++ pad2 m ++ "-" ++ pad2 d

/-- ISO-8601 rendering of a native datetime value:
`YYYY-MM-DDTHH:MM:SS`. -/
def isoOfDatetime (y mo d h mi s : Nat) : String :=
  isoOfDate y mo d ++ "T" ++ pad2 h ++ ":" ++ pad2 mi ++ ":" ++ pad2 s

/-- Modelled from the spec: `pycronofy/datetime_utils.py` is not in the
available sources.  Spec section 6: `start`/`end` "accept either a native
date/time value or a pre-formatted ISO-8601 string; output is always
normalized ISO-8601".  `None` is passed through (spec: optional
`from_date`/`to_date` filters may be absent).  Values of other shapes are
returned unchanged. -/
def get_iso8601_string : PyVal → PyVal
  | .date y m d => .str (isoOfDate y m d)
  | .datetime y mo d h mi s => .str (isoOfDatetime y mo d h mi s)
  | v => v

/-- The value shapes the spec admits for `start`/`end`: a native date or
datetime value, or a pre-formatted ISO-8601 string. -/
def isDateLike : PyVal → Bool
  | .str _ => true
  | .date _ _ _ => true
  | .datetime _ _ _ _ _ _ => true
  | _ => false

/-- Modelled from the spec: `pycronofy/settings.py` is not in the
available sources.  Spec section 4.4 gives the required-field set for
event upsert as "(implementation-defined constant, e.g. event id,
summary, start, end)". -/
def EVENTS_REQUIRED_FIELDS : List String :=
  ["event_id", "summary", "start", "end"]

/-- Modelled from the spec: `pycronofy/settings.py` is not in the
available sources.  Spec section 4.4: `user_auth_link` "falls back to a
fixed default scope list (space-joined)"; the concrete entries are the
service's documented default scopes. -/
def DEFAULT_OAUTH_SCOPE : List String :=
  ["read_account", "list_calendars", "read_events", "create_event", "delete_event"]

/-- Modelled from the spec: fixed API base URL (spec section 6). -/
def API_BASE_URL : String := "https://api.cronofy.com"

/-- Modelled from the spec: fixed app/authorization base URL
(spec section 6). -/
def APP_BASE_URL : String := "https://app.cronofy.com"

/-- Modelled from the spec: default timezone id setting referenced by
`read_events` / `read_free_busy`. -/
def DEFAULT_TIMEZONE_ID : String := "Etc/UTC"

/-- First value stored under a key of a Python-dict modelled as an
association list. -/
def findVal (xs : List (String × PyVal)) (k : String) : Option PyVal :=
  (xs.find? (fun p => p.1 == k)).map (fun p => p.2)

/-- Python dict subscript assignment `d[k] = v`: replaces the value in
place when the key exists (keeping its position), appends otherwise. -/
def setVal : List (String × PyVal) → String → PyVal → List (String × PyVal)
  | [], k, v => [(k, v)]
  | p :: rest, k, v =>
    if p.1 == k then (k, v) :: rest else p :: setVal rest k v

/-- OAuth credential state.  Modelled from the spec: `pycronofy/auth.py`
is not in the available sources; spec section 3 lists the credential
fields and section 4.1 describes `Auth.update` as overwriting exactly
the fields named by the caller, which the client-method embeddings below
realise by structure update with exactly the fields each call site
passes.  Token fields hold raw response values (`PyVal`); `None` is
represented by `Option.none` / `PyVal.null`. -/
structure Auth where
  client_id : Option String
  client_secret : Option String
  access_token : Option PyVal
  refresh_token : Option PyVal
  authorization_datetime : Option PyVal
  expires_in : PyVal
  redirect_uri : Option String
  deriving Repr, DecidableEq

/-- `Auth(client_id, client_secret, access_token, refresh_token)` as the
client constructor calls it; the remaining fields start unset. -/
def Auth.init (client_id client_secret access_token refresh_token :
    Option String) : Auth :=
  { client_id := client_id
    client_secret := client_secret
    access_token := access_token.map PyVal.str
    refresh_token := refresh_token.map PyVal.str
    authorization_datetime := none
    expires_in := .null
    redirect_uri := none }

/-- The client state: just the `Auth` object (the request handler holds
no state of its own in this embedding). -/
structure Client where
  auth : Auth
  deriving Repr, DecidableEq

/-- `CronofyClient(client_id, client_secret, access_token,
refresh_token)`. -/
def Client.init (client_id client_secret access_token refresh_token :
    Option String) : Client :=
  { auth := Auth.init client_id client_secret access_token refresh_token }

inductive HttpMethod where
  | get | post | delete
  deriving Repr, DecidableEq

/-- A request as handed to the RequestHandler: method, endpoint or
absolute url, query params, body data, and whether JSON is wanted. -/
structure HttpRequest where
  method : HttpMethod
  endpoint : Option String
  url : Option String
  params : List (String × PyVal)
  data : List (String × PyVal)
  return_json : Bool
  deriving Repr, DecidableEq

/-- A remote response: status code, parsed JSON body, and the resolved
url (used by `return_json=False` callers).  Modelled from the spec:
`pycronofy/request_handler.py` is not in the available sources; spec
section 7 notes the outcome of a call is "independently
returned/inspectable", so responses carry their status code rather than
aborting the caller. -/
structure HttpResponse where
  status_code : Nat
  body : List (String × PyVal)
  url : String
  deriving Repr, DecidableEq

/-- A possibly-absent string as it lands in a Python dict value. -/
def optStr : Option String → PyVal
  | some s => .str s
  | none => .null

/-- A possibly-absent stored token value as it lands in a Python dict
value. -/
def optPy : Option PyVal → PyVal
  | some v => v
  | none => .null

/-- Result dict of `get_authorization_from_code`. -/
structure AuthCodeResult where
  access_token : Option PyVal
  refresh_token : Option PyVal
  response_status : Nat
  deriving Repr, DecidableEq

/-- `CronofyClient.get_authorization_from_code(code, redirect_uri)`.
The single POST the method makes is returned on the left; `resp` is the
token endpoint's reply to it and `now` is `datetime.datetime.now()`.
A body lacking one of the accessed keys raises `KeyError`, modelled as
`Except.error`. -/
def Client.get_authorization_from_code (c : Client) (code : String)
    (redirect_uri : String) (now : PyVal) (resp : HttpResponse) :
    HttpRequest × Except String (Client × AuthCodeResult) :=
  let req : HttpRequest :=
    { method := .post
      endpoint := none
      url := some (API_BASE_URL ++ "/oauth/token")
      params := []
      data := [("grant_type", .str "authorization_code"),
               ("client_id", optStr c.auth.client_id),
               ("client_secret", optStr c.auth.client_secret),
               ("code", .str code),
               ("redirect_uri",
                 if redirect_uri == "" then optStr c.auth.redirect_uri
                 else .str redirect_uri)]
      return_json := true }
  match findVal resp.body "access_token", findVal resp.body "refresh_token",
      findVal resp.body "expires_in" with
  | some tokv, some rtokv, some eiv =>
    let auth' : Auth :=
      { c.auth with
        authorization_datetime := some now
        access_token := some tokv
        refresh_token := some rtokv
        expires_in := eiv }
    (req, .ok ({ auth := auth' },
      { access_token := auth'.access_token
        refresh_token := auth'.refresh_token
        response_status := resp.status_code }))
  | _, _, _ => (req, .error "KeyError")

/-- `CronofyClient.refresh_access_token()`: POSTs the stored refresh
token to the token endpoint and updates `access_token`, `expires_in`
and `authorization_datetime` (the stored `refresh_token` is not among
the fields passed to `auth.update`). -/
def Client.refresh_access_token (c : Client) (now : PyVal)
    (resp : HttpResponse) :
    HttpRequest × Except String (Client × HttpResponse) :=
  let req : HttpRequest :=
    { method := .post
      endpoint := none
      url := some (API_BASE_URL ++ "/oauth/token")
      params := []
      data := [("grant_type", .str "refresh_token"),
               ("client_id", optStr c.auth.client_id),
               ("client_secret", optStr c.auth.client_secret),
               ("refresh_token", optPy c.auth.refresh_token)]
      return_json := true }
  match findVal resp.body "access_token", findVal resp.body "expires_in" with
  | some tokv, some eiv =>
    (req, .ok ({ auth :=
      { c.auth with
        authorization_datetime := some now
        access_token := some tokv
        expires_in := eiv } }, resp))
  | _, _ => (req, .error "KeyError")

/-- `CronofyClient.revoke_authorization()`: POSTs the access token to the
revoke endpoint, then clears `authorization_datetime`, `access_token`
and `refresh_token` and zeroes `expires_in`, with no inspection of the
response; the response is returned as-is. -/
def Client.revoke_authorization (c : Client) (resp : HttpResponse) :
    HttpRequest × Client × HttpResponse :=
  let req : HttpRequest :=
    { method := .post
      endpoint := none
      url := some (API_BASE_URL ++ "/oauth/token/revoke")
      params := []
      data := [("client_id", optStr c.auth.client_id),
               ("client_secret", optStr c.auth.client_secret),
               ("token", optPy c.auth.access_token)]
      return_json := true }
  (req, { auth :=
    { c.auth with
      authorization_datetime := none
      access_token := none
      refresh_token := none
      expires_in := .num 0 } }, resp)

/-- `CronofyClient.upsert_event(calendar_id, event)`: checks each field
of `EVENTS_REQUIRED_FIELDS` in order and raises at the first one missing
from the event dict; otherwise overwrites the dict's `start` and `end`
entries in place with their `get_iso8601_string` forms and POSTs the
dict.  Python passes the dict by reference, so the returned dict on the
right is the caller's own dict as the call leaves it. -/
def Client.upsert_event (c : Client) (calendar_id : String)
    (event : List (String × PyVal)) :
    Except String (HttpRequest × List (String × PyVal)) :=
  match EVENTS_REQUIRED_FIELDS.find?
      (fun k => !(event.any (fun p => p.1 == k))) with
  | some k => .error (k ++ " not found in event.")
  | none =>
    let ev1 := setVal event "start"
      (get_iso8601_string ((findVal event "start").getD .null))
    let ev2 := setVal ev1 "end"
      (get_iso8601_string ((findVal ev1 "end").getD .null))
    .ok ({ method := .post
           endpoint := some ("calendars/" ++ calendar_id ++ "/events")
           url := none
           params := []
           data := ev2
           return_json := true }, ev2)

/-- The requests a finished `upsert_event` call has handed to the
`RequestHandler`: none when validation raised, the single POST
otherwise. -/
def upsertRequests
    (r : Except String (HttpRequest × List (String × PyVal))) :
    List HttpRequest :=
  match r with
  | .error _ => []
  | .ok pr => [pr.1]

/-- `CronofyClient.user_auth_link(redirect_uri, scope, state)`: empty
scope falls back to the space-joined default scope list; the auth's
`redirect_uri` is updated; a `return_json=False` GET against the
authorize endpoint yields the resolved url, which is returned. -/
def Client.user_auth_link (c : Client) (redirect_uri scope st : String)
    (resp : HttpResponse) : HttpRequest × Client × String :=
  let scope1 :=
    if scope == "" then String.intercalate " " DEFAULT_OAUTH_SCOPE else scope
  let c1 : Client := { auth := { c.auth with redirect_uri := some redirect_uri } }
  let req : HttpRequest :=
    { method := .get
      endpoint := none
      url := some (APP_BASE_URL ++ "/oauth/authorize")
      params := [("response_type", .str "code"),
                 ("client_id", optStr c1.auth.client_id),
                 ("redirect_uri", .str redirect_uri),
                 ("scope", .str scope1),
                 ("state", .str st)]
      data := []
      return_json := false }
  (req, c1, resp.url)

/-- The wrapper a list endpoint's first response is put into:
`Pages(request_handler, results, result_key, automatic_pagination)`
keeps the first page's JSON body, the key naming the item array, and
the pagination flag. -/
structure PagesObj where
  first_page : List (String × PyVal)
  result_key : String
  automatic_pagination : Bool
  deriving Repr, DecidableEq

/-- `CronofyClient.read_events(...)`: GETs the events endpoint with the
date/time filters normalized through `get_iso8601_string` and wraps the
response body in a `Pages` with result key `"events"`. -/
def Client.read_events (c : Client) (calendar_ids : List String)
    (from_date to_date last_modified : PyVal) (tzid : String)
    (only_managed include_managed include_deleted include_moved
     localized_times automatic_pagination : Bool)
    (resp : HttpResponse) : HttpRequest × PagesObj :=
  let req : HttpRequest :=
    { method := .get
      endpoint := some "events"
      url := none
      params := [("tzid", .str tzid),
                 ("calendar_ids", .strs calendar_ids),
                 ("from", get_iso8601_string from_date),
                 ("to", get_iso8601_string to_date),
                 ("last_modified", get_iso8601_string last_modified),
                 ("only_managed", .bool only_managed),
                 ("include_managed", .bool include_managed),
                 ("include_deleted", .bool include_deleted),
                 ("include_moved", .bool include_moved),
                 ("localized_times", .bool localized_times)]
      data := []
      return_json := true }
  (req, { first_page := resp.body
          result_key := "events"
          automatic_pagination := automatic_pagination })

/-- One page as the `Pages` iterator sees it: its item array and the
optional next-page link.  Modelled from the spec:
`pycronofy/pagination.py` is not in the available sources; spec
section 3 gives Page as `{items, result_key, next_page_url?}`. -/
structure Page (α : Type) where
  items : List α
  next_page_url : Option String
  deriving Repr, DecidableEq

/-- Modelled from the spec: the `Pages` iteration state machine of spec
section 4.3 (`pycronofy/pagination.py` is not in the available
sources).  The cursor walks the current page's items; on exhaustion,
when a next-page link exists and `automatic_pagination` is true, the
link is fetched through the request handler, the page replaced and the
cursor reset, else iteration ends.  `fetch` stands for the request
handler's GET; `fuel` bounds the number of follow-up fetches so the
recursion is total.  Returns the items yielded, paired with the number
of follow-up fetches issued. -/
def pagesIterate {α : Type} (fetch : String → Page α) (auto : Bool) :
    Nat → Page α → List α × Nat
  | 0, page => (page.items, 0)
  | fuel + 1, page =>
    match page.next_page_url, auto with
    | some url, true =>
      let rest := pagesIterate fetch auto fuel (fetch url)
      (page.items ++ rest.1, rest.2 + 1)
    | _, _ => (page.items, 0)

/-- `chainOK fetch p rest` says the pages `p :: rest` form a linked
chain: every page but the last carries a next-page link that `fetch`
resolves to the following page, and the last page carries none. -/
def chainOK {α : Type} (fetch : String → Page α) :
    Page α → List (Page α) → Prop
  | p, [] => p.next_page_url = none
  | p, q :: rest =>
    ∃ url, p.next_page_url = some url ∧ fetch url = q ∧ chainOK fetch q rest

/-! ### Helper lemmas about the dict model -/

theorem findVal_nil (k : String) : findVal [] k = none := rfl

theorem findVal_cons (p : String × PyVal) (ps : List (String × PyVal))
    (k : String) :
    findVal (p :: ps) k = if p.1 == k then some p.2 else findVal ps k := by
  by_cases h : p.1 == k <;> simp [findVal, List.find?_cons, h]

theorem findVal_setVal_self (xs : List (String × PyVal)) (k : String)
    (v : PyVal) : findVal (setVal xs k v) k = some v := by
  induction xs with
  | nil => simp [setVal, findVal_cons]
  | cons p rest ih =>
    by_cases h : p.1 == k
    · simp [setVal, h, findVal_cons]
    · simp [setVal, h, findVal_cons, ih]

theorem findVal_setVal_ne (xs : List (String × PyVal)) (k k' : String)
    (v : PyVal) (h : (k' == k) = false) :
    findVal (setVal xs k v) k' = findVal xs k' := by
  have hkk : (k == k') = false := by
    cases hx : k == k' with
    | false => rfl
    | true => rw [beq_iff_eq] at hx; rw [hx] at h; simp at h
  induction xs with
  | nil => simp [setVal, findVal_cons, hkk, findVal_nil]
  | cons p rest ih =>
    by_cases hp : (p.1 == k) = true
    · have hp1 : (p.1 == k') = false := by
        rw [beq_iff_eq] at hp
        cases hx : p.1 == k' with
        | false => rfl
        | true =>
          rw [beq_iff_eq] at hx
          rw [← hp, hx] at hkk
          simp at hkk
      simp only [setVal, hp, if_true, findVal_cons, hkk, hp1]
      simp
    · have hp' : (p.1 == k) = false := by
        cases hx : p.1 == k with
        | false => rfl
        | true => exact absurd hx hp
      simp only [setVal, hp', Bool.false_eq_true, if_false, findVal_cons, ih]

theorem any_key_eq_isSome_findVal (xs : List (String × PyVal)) (k : String) :
    xs.any (fun p => p.1 == k) = (findVal xs k).isSome := by
  induction xs with
  | nil => simp [findVal]
  | cons p rest ih =>
    by_cases h : p.1 == k <;> simp [findVal_cons, h, ih]

theorem get_iso8601_string_dateLike (v : PyVal) (h : isDateLike v = true) :
    ∃ s, get_iso8601_string v = .str s := by
  cases v <;> first
    | exact ⟨_, rfl⟩
    | simp [isDateLike] at h

/-- When every required field is present, the validation loop of
`upsert_event` finds no missing key. -/
theorem upsert_validation_passes (event : List (String × PyVal))
    (hall : ∀ k ∈ EVENTS_REQUIRED_FIELDS, (findVal event k).isSome = true) :
    EVENTS_REQUIRED_FIELDS.find?
      (fun k => !(event.any (fun p => p.1 == k))) = none := by
  rw [List.find?_eq_none]
  intro k hk
  rw [any_key_eq_isSome_findVal, hall k hk]
  simp

/-- Normal form of a validated `upsert_event` call: the `ok` branch with
the dict's `start`/`end` overwritten by their normalized values. -/
theorem upsert_event_ok_form (c : Client) (calendar_id : String)
    (event : List (String × PyVal)) (sv ev : PyVal)
    (hall : ∀ k ∈ EVENTS_REQUIRED_FIELDS, (findVal event k).isSome = true)
    (hs : findVal event "start" = some sv)
    (he : findVal event "end" = some ev) :
    c.upsert_event calendar_id event = .ok
      ({ method := .post
         endpoint := some ("calendars/" ++ calendar_id ++ "/events")
         url := none
         params := []
         data := setVal (setVal event "start" (get_iso8601_string sv)) "end"
           (get_iso8601_string ev)
         return_json := true },
       setVal (setVal event "start" (get_iso8601_string sv)) "end"
         (get_iso8601_string ev)) := by
  have hnone := upsert_validation_passes event hall
  have hend : findVal (setVal event "start" (get_iso8601_string sv)) "end"
      = some ev := by
    rw [findVal_setVal_ne event "start" "end" _ (by decide), he]
  simp only [Client.upsert_event, hnone, hs, hend, Option.getD_some]

/-! ### Claim theorems: OAuth token lifecycle -/

/-- C1: whenever the remote revoke POST comes back with a non-2xx HTTP
status, `revoke_authorization` nonetheless clears the local credential
fields: `access_token`, `refresh_token` and `authorization_datetime`
are emptied and `expires_in` is zeroed — the clearing does not depend
on remote success. -/
theorem revoke_clears_credentials_on_http_error (c : Client)
    (resp : HttpResponse)
    (h : resp.status_code < 200 ∨ 300 ≤ resp.status_code) :
    ((c.revoke_authorization resp).2.1).auth.access_token = none ∧
    ((c.revoke_authorization resp).2.1).auth.refresh_token = none ∧
    ((c.revoke_authorization resp).2.1).auth.authorization_datetime = none ∧
    ((c.revoke_authorization resp).2.1).auth.expires_in = .num 0 := by
  refine ⟨rfl, rfl, rfl, rfl⟩

/-- Witness for C1: a concrete client and a simulated 500 reply. -/
theorem revoke_clears_credentials_on_http_error_witness :
    ((500 : Nat) < 200 ∨ (300 : Nat) ≤ 500) ∧
    ((((Client.init (some "cid") (some "sec") (some "tok")
        (some "ref")).revoke_authorization
        { status_code := 500, body := [], url := "" }).2.1).auth.access_token
          = none ∧
     ((((Client.init (some "cid") (some "sec") (some "tok")
        (some "ref"))).revoke_authorization
        { status_code := 500, body := [], url := "" }).2.1).auth.refresh_token
          = none ∧
     ((((Client.init (some "cid") (some "sec") (some "tok")
        (some "ref"))).revoke_authorization
        { status_code := 500, body := [], url := "" }).2.1).auth.authorization_datetime
          = none ∧
     ((((Client.init (some "cid") (some "sec") (some "tok")
        (some "ref"))).revoke_authorization
        { status_code := 500, body := [], url := "" }).2.1).auth.expires_in
          = .num 0) :=
  ⟨by decide,
   revoke_clears_credentials_on_http_error
     (Client.init (some "cid") (some "sec") (some "tok") (some "ref"))
     { status_code := 500, body := [], url := "" } (by decide)⟩

/-- C6: `revoke_authorization` clears exactly `access_token`,
`refresh_token` and `authorization_datetime` and zeroes `expires_in`,
while `client_id`, `client_secret` and `redirect_uri` are left
unchanged. -/
theorem revoke_authorization_frame (c : Client) (resp : HttpResponse) :
    ((c.revoke_authorization resp).2.1).auth.access_token = none ∧
    ((c.revoke_authorization resp).2.1).auth.refresh_token = none ∧
    ((c.revoke_authorization resp).2.1).auth.authorization_datetime = none ∧
    ((c.revoke_authorization resp).2.1).auth.expires_in = .num 0 ∧
    ((c.revoke_authorization resp).2.1).auth.client_id = c.auth.client_id ∧
    ((c.revoke_authorization resp).2.1).auth.client_secret
      = c.auth.client_secret ∧
    ((c.revoke_authorization resp).2.1).auth.redirect_uri
      = c.auth.redirect_uri :=
  ⟨rfl, rfl, rfl, rfl, rfl, rfl, rfl⟩

/-- C4: a token reply `{"access_token":"A","refresh_token":"R",
"expires_in":3600}` to `get_authorization_from_code` leaves the auth
with `access_token == "A"`, `refresh_token == "R"`,
`expires_in == 3600` and a freshly stamped
`authorization_datetime`. -/
theorem get_authorization_from_code_updates_auth (c : Client)
    (code redirect_uri : String) (now : PyVal) (resp : HttpResponse)
    (h : resp.body = [("access_token", .str "A"), ("refresh_token", .str "R"),
      ("expires_in", .num 3600)]) :
    ∃ r : Client × AuthCodeResult,
      (c.get_authorization_from_code code redirect_uri now resp).2 = .ok r ∧
      r.1.auth.access_token = some (.str "A") ∧
      r.1.auth.refresh_token = some (.str "R") ∧
      r.1.auth.expires_in = .num 3600 ∧
      r.1.auth.authorization_datetime = some now := by
  unfold Client.get_authorization_from_code
  rw [h]
  exact ⟨_, rfl, rfl, rfl, rfl, rfl⟩

/-- Witness for C4 on a concrete client and reply. -/
theorem get_authorization_from_code_updates_auth_witness :
    ∃ r : Client × AuthCodeResult,
      ((Client.init (some "cid") (some "sec") none
        none).get_authorization_from_code "thecode" "https://r.example"
        (.datetime 2016 5 1 12 0 0)
        { status_code := 200
          body := [("access_token", .str "A"), ("refresh_token", .str "R"),
            ("expires_in", .num 3600)]
          url := "" }).2 = .ok r ∧
      r.1.auth.access_token = some (.str "A") ∧
      r.1.auth.refresh_token = some (.str "R") ∧
      r.1.auth.expires_in = .num 3600 ∧
      r.1.auth.authorization_datetime = some (.datetime 2016 5 1 12 0 0) :=
  get_authorization_from_code_updates_auth
    (Client.init (some "cid") (some "sec") none none) "thecode"
    "https://r.example" (.datetime 2016 5 1 12 0 0)
    { status_code := 200
      body := [("access_token", .str "A"), ("refresh_token", .str "R"),
        ("expires_in", .num 3600)]
      url := "" } rfl

/-- C5: on a successful token reply, `refresh_access_token` updates
`access_token`, `expires_in` and stamps `authorization_datetime`, but
leaves `refresh_token` exactly as it was. -/
theorem refresh_access_token_keeps_refresh_token (c : Client) (now : PyVal)
    (resp : HttpResponse) (tokv eiv : PyVal)
    (h1 : findVal resp.body "access_token" = some tokv)
    (h2 : findVal resp.body "expires_in" = some eiv) :
    ∃ c' : Client, (c.refresh_access_token now resp).2 = .ok (c', resp) ∧
      c'.auth.access_token = some tokv ∧
      c'.auth.expires_in = eiv ∧
      c'.auth.authorization_datetime = some now ∧
      c'.auth.refresh_token = c.auth.refresh_token := by
  unfold Client.refresh_access_token
  rw [h1, h2]
  exact ⟨_, rfl, rfl, rfl, rfl, rfl⟩

/-- Witness for C5 on a concrete client and reply. -/
theorem refresh_access_token_keeps_refresh_token_witness :
    ∃ c' : Client,
      ((Client.init (some "cid") (some "sec") (some "old")
        (some "ref")).refresh_access_token (.datetime 2016 6 2 8 30 0)
        { status_code := 200
          body := [("token_type", .str "bearer"),
            ("access_token", .str "new"), ("expires_in", .num 3600)]
          url := "" }).2 = .ok (c',
        { status_code := 200
          body := [("token_type", .str "bearer"),
            ("access_token", .str "new"), ("expires_in", .num 3600)]
          url := "" }) ∧
      c'.auth.access_token = some (.str "new") ∧
      c'.auth.expires_in = .num 3600 ∧
      c'.auth.authorization_datetime = some (.datetime 2016 6 2 8 30 0) ∧
      c'.auth.refresh_token =
        (Client.init (some "cid") (some "sec") (some "old")
          (some "ref")).auth.refresh_token :=
  refresh_access_token_keeps_refresh_token
    (Client.init (some "cid") (some "sec") (some "old") (some "ref"))
    (.datetime 2016 6 2 8 30 0)
    { status_code := 200
      body := [("token_type", .str "bearer"), ("access_token", .str "new"),
        ("expires_in", .num 3600)]
      url := "" }
    (.str "new") (.num 3600) rfl rfl

/-! ### Claim theorems: event upsert -/

/-- C3: when the event dict lacks at least one field of
`EVENTS_REQUIRED_FIELDS`, `upsert_event` raises a validation error and
hands no request at all to the `RequestHandler`. -/
theorem upsert_event_missing_field_no_request (c : Client)
    (calendar_id : String) (event : List (String × PyVal))
    (h : ∃ k ∈ EVENTS_REQUIRED_FIELDS, findVal event k = none) :
    (∃ msg, c.upsert_event calendar_id event = .error msg) ∧
    upsertRequests (c.upsert_event calendar_id event) = [] := by
  obtain ⟨k, hk, hknone⟩ := h
  have hsome : (EVENTS_REQUIRED_FIELDS.find?
      (fun k => !(event.any (fun p => p.1 == k)))).isSome := by
    apply List.find?_isSome.mpr
    refine ⟨k, hk, ?_⟩
    rw [any_key_eq_isSome_findVal, hknone]
    rfl
  obtain ⟨k', hk'⟩ := Option.isSome_iff_exists.mp hsome
  have herr : c.upsert_event calendar_id event
      = .error (k' ++ " not found in event.") := by
    unfold Client.upsert_event
    rw [hk']
  exact ⟨⟨_, herr⟩, by rw [herr]; rfl⟩

/-- Witness for C3: an event dict missing the `summary` field. -/
theorem upsert_event_missing_field_no_request_witness :
    (∃ k ∈ EVENTS_REQUIRED_FIELDS,
      findVal [("event_id", PyVal.str "e"), ("start", PyVal.date 2016 1 1),
        ("end", PyVal.date 2016 1 2)] k = none) ∧
    ((∃ msg, (Client.init none none (some "tok") none).upsert_event "cal"
        [("event_id", PyVal.str "e"), ("start", PyVal.date 2016 1 1),
          ("end", PyVal.date 2016 1 2)] = .error msg) ∧
     upsertRequests ((Client.init none none (some "tok") none).upsert_event
        "cal" [("event_id", PyVal.str "e"), ("start", PyVal.date 2016 1 1),
          ("end", PyVal.date 2016 1 2)]) = []) :=
  ⟨by decide,
   upsert_event_missing_field_no_request (Client.init none none (some "tok")
     none) "cal" [("event_id", PyVal.str "e"), ("start", PyVal.date 2016 1 1),
      ("end", PyVal.date 2016 1 2)] (by decide)⟩

/-- C7: for a validated event whose `start`/`end` are native date/time
values or already-ISO-8601 strings, the POSTed body carries canonical
ISO-8601 strings for `start` and `end`, namely their
`get_iso8601_string` normalizations. -/
theorem upsert_event_normalizes_start_end (c : Client) (calendar_id : String)
    (event : List (String × PyVal)) (sv ev : PyVal)
    (hall : ∀ k ∈ EVENTS_REQUIRED_FIELDS, (findVal event k).isSome = true)
    (hs : findVal event "start" = some sv)
    (he : findVal event "end" = some ev)
    (hsv : isDateLike sv = true) (hev : isDateLike ev = true) :
    ∃ req ev' s1 s2,
      c.upsert_event calendar_id event = .ok (req, ev') ∧
      findVal req.data "start" = some (.str s1) ∧
      .str s1 = get_iso8601_string sv ∧
      findVal req.data "end" = some (.str s2) ∧
      .str s2 = get_iso8601_string ev := by
  obtain ⟨s1, hs1⟩ := get_iso8601_string_dateLike sv hsv
  obtain ⟨s2, hs2⟩ := get_iso8601_string_dateLike ev hev
  refine ⟨_, _, s1, s2,
    upsert_event_ok_form c calendar_id event sv ev hall hs he, ?_,
    hs1.symm, ?_, hs2.symm⟩
  · rw [findVal_setVal_ne _ "end" "start" _ (by decide), findVal_setVal_self,
      hs1]
  · rw [findVal_setVal_self, hs2]

/-- Witness for C7: a native-date start and an ISO-string end. -/
theorem upsert_event_normalizes_start_end_witness :
    (∀ k ∈ EVENTS_REQUIRED_FIELDS,
      (findVal [("event_id", PyVal.str "e"), ("summary", PyVal.str "party"),
        ("start", PyVal.date 2016 1 1), ("end", PyVal.str "2016-01-02")]
        k).isSome = true) ∧
    (∃ req ev' s1 s2,
      (Client.init none none (some "tok") none).upsert_event "cal"
        [("event_id", PyVal.str "e"), ("summary", PyVal.str "party"),
          ("start", PyVal.date 2016 1 1), ("end", PyVal.str "2016-01-02")]
        = .ok (req, ev') ∧
      findVal req.data "start" = some (.str s1) ∧
      .str s1 = get_iso8601_string (PyVal.date 2016 1 1) ∧
      findVal req.data "end" = some (.str s2) ∧
      .str s2 = get_iso8601_string (PyVal.str "2016-01-02")) :=
  ⟨by decide,
   upsert_event_normalizes_start_end (Client.init none none (some "tok") none)
     "cal" [("event_id", PyVal.str "e"), ("summary", PyVal.str "party"),
       ("start", PyVal.date 2016 1 1), ("end", PyVal.str "2016-01-02")]
     (PyVal.date 2016 1 1) (PyVal.str "2016-01-02") (by decide) rfl rfl rfl
     rfl⟩

/-- C10: a validated `upsert_event` call leaves the caller's own event
dict (passed by reference in Python and threaded through the embedding)
with its `start` and `end` entries replaced by their ISO-8601 string
forms; the transmitted body is that same dict. -/
theorem upsert_event_mutates_caller_event (c : Client) (calendar_id : String)
    (event : List (String × PyVal)) (sv ev : PyVal)
    (hall : ∀ k ∈ EVENTS_REQUIRED_FIELDS, (findVal event k).isSome = true)
    (hs : findVal event "start" = some sv)
    (he : findVal event "end" = some ev) :
    ∃ req ev',
      c.upsert_event calendar_id event = .ok (req, ev') ∧
      ev' = req.data ∧
      findVal ev' "start" = some (get_iso8601_string sv) ∧
      findVal ev' "end" = some (get_iso8601_string ev) := by
  refine ⟨_, _,
    upsert_event_ok_form c calendar_id event sv ev hall hs he, rfl, ?_, ?_⟩
  · rw [findVal_setVal_ne _ "end" "start" _ (by decide), findVal_setVal_self]
  · rw [findVal_setVal_self]

/-- Witness for C10: native datetime start and end. -/
theorem upsert_event_mutates_caller_event_witness :
    (∀ k ∈ EVENTS_REQUIRED_FIELDS,
      (findVal [("event_id", PyVal.str "x"), ("summary", PyVal.str "mtg"),
        ("start", PyVal.datetime 2016 3 4 10 0 0),
        ("end", PyVal.datetime 2016 3 4 11 0 0)] k).isSome = true) ∧
    (∃ req ev',
      (Client.init none none (some "tok") none).upsert_event "work"
        [("event_id", PyVal.str "x"), ("summary", PyVal.str "mtg"),
          ("start", PyVal.datetime 2016 3 4 10 0 0),
          ("end", PyVal.datetime 2016 3 4 11 0 0)] = .ok (req, ev') ∧
      ev' = req.data ∧
      findVal ev' "start"
        = some (get_iso8601_string (PyVal.datetime 2016 3 4 10 0 0)) ∧
      findVal ev' "end"
        = some (get_iso8601_string (PyVal.datetime 2016 3 4 11 0 0))) :=
  ⟨by decide,
   upsert_event_mutates_caller_event (Client.init none none (some "tok") none)
     "work" [("event_id", PyVal.str "x"), ("summary", PyVal.str "mtg"),
       ("start", PyVal.datetime 2016 3 4 10 0 0),
       ("end", PyVal.datetime 2016 3 4 11 0 0)]
     (PyVal.datetime 2016 3 4 10 0 0) (PyVal.datetime 2016 3 4 11 0 0)
     (by decide) rfl rfl⟩

/-! ### Claim theorems: read_events and user_auth_link -/

/-- C8: `read_events` with native date values GETs the events endpoint
with `from`/`to` params equal to the dates' direct ISO-8601 renderings,
and wraps the response body in a `Pages` with result key `"events"` and
the given `automatic_pagination` flag. -/
theorem read_events_native_dates (c : Client) (cals : List String)
    (y1 m1 d1 y2 m2 d2 : Nat) (lm : PyVal) (tzid : String)
    (b1 b2 b3 b4 b5 ap : Bool) (resp : HttpResponse) :
    (c.read_events cals (.date y1 m1 d1) (.date y2 m2 d2) lm tzid b1 b2 b3
      b4 b5 ap resp).1.method = .get ∧
    (c.read_events cals (.date y1 m1 d1) (.date y2 m2 d2) lm tzid b1 b2 b3
      b4 b5 ap resp).1.endpoint = some "events" ∧
    findVal (c.read_events cals (.date y1 m1 d1) (.date y2 m2 d2) lm tzid b1
      b2 b3 b4 b5 ap resp).1.params "from"
        = some (.str (isoOfDate y1 m1 d1)) ∧
    findVal (c.read_events cals (.date y1 m1 d1) (.date y2 m2 d2) lm tzid b1
      b2 b3 b4 b5 ap resp).1.params "to"
        = some (.str (isoOfDate y2 m2 d2)) ∧
    (c.read_events cals (.date y1 m1 d1) (.date y2 m2 d2) lm tzid b1 b2 b3
      b4 b5 ap resp).2.result_key = "events" ∧
    (c.read_events cals (.date y1 m1 d1) (.date y2 m2 d2) lm tzid b1 b2 b3
      b4 b5 ap resp).2.automatic_pagination = ap ∧
    (c.read_events cals (.date y1 m1 d1) (.date y2 m2 d2) lm tzid b1 b2 b3
      b4 b5 ap resp).2.first_page = resp.body :=
  ⟨rfl, rfl, rfl, rfl, rfl, rfl, rfl⟩

/-- C9: the `scope` query parameter of the OAuth authorization URL built
by `user_auth_link` is the space-joined fixed default scope list when
the scope argument is empty, and the caller's scope unchanged
otherwise. -/
theorem user_auth_link_scope_param (c : Client)
    (redirect_uri scope st : String) (resp : HttpResponse) :
    findVal (c.user_auth_link redirect_uri scope st resp).1.params "scope" =
      some (.str (if scope = "" then String.intercalate " " DEFAULT_OAUTH_SCOPE
        else scope)) := by
  by_cases h : scope = ""
  · subst h
    rfl
  · have hb : (scope == "") = false := by
      cases hx : scope == "" with
      | false => rfl
      | true => rw [beq_iff_eq] at hx; exact absurd hx h
    rw [if_neg h]
    unfold Client.user_auth_link
    simp only [hb]
    rfl

/-! ### Claim theorems: automatic pagination -/

/-- C2: over a linked chain of pages in which every page but the last
carries a next-page link and the last carries none, automatic-pagination
iteration yields exactly the concatenation of the pages' item arrays in
order and issues exactly one follow-up fetch per non-final page — the
final page triggers none. -/
theorem pages_auto_pagination_concat {α : Type} (fetch : String → Page α)
    (p : Page α) (rest : List (Page α)) (fuel : Nat)
    (hchain : chainOK fetch p rest) (hfuel : rest.length ≤ fuel) :
    pagesIterate fetch true fuel p
      = (((p :: rest).map Page.items).flatten, rest.length) := by
  revert hchain hfuel
  induction rest generalizing p fuel with
  | nil =>
    intro hchain _
    have hnp : p.next_page_url = none := hchain
    cases fuel with
    | zero => simp [pagesIterate]
    | succ f => simp [pagesIterate, hnp]
  | cons q rest ih =>
    intro hchain hfuel
    obtain ⟨url, hnp, hf, hc⟩ := hchain
    cases fuel with
    | zero => exact absurd hfuel (by simp)
    | succ f =>
      have hf' : rest.length ≤ f := Nat.le_of_succ_le_succ hfuel
      have hrec := ih q f hc hf'
      simp [pagesIterate, hnp, hf, hrec]

/-- Witness for C2: a three-page chain yields all items and exactly two
follow-up fetches. -/
theorem pages_auto_pagination_concat_witness :
    (chainOK
      (fun s => if s = "u2" then ({ items := [3], next_page_url := some "u3" }
          : Page Nat)
        else if s = "u3" then { items := [4, 5], next_page_url := none }
        else { items := [], next_page_url := none })
      { items := [1, 2], next_page_url := some "u2" }
      [{ items := [3], next_page_url := some "u3" },
       { items := [4, 5], next_page_url := none }] ∧
     ([({ items := [3], next_page_url := some "u3" } : Page Nat),
       { items := [4, 5], next_page_url := none }].length ≤ 2)) ∧
    pagesIterate
      (fun s => if s = "u2" then ({ items := [3], next_page_url := some "u3" }
          : Page Nat)
        else if s = "u3" then { items := [4, 5], next_page_url := none }
        else { items := [], next_page_url := none })
      true 2 { items := [1, 2], next_page_url := some "u2" }
      = ([1, 2, 3, 4, 5], 2) := by
  constructor
  · exact ⟨⟨"u2", rfl, rfl, "u3", rfl, rfl, rfl⟩, by decide⟩
  · have h := pages_auto_pagination_concat
      (fun s => if s = "u2" then ({ items := [3], next_page_url := some "u3" }
          : Page Nat)
        else if s = "u3" then { items := [4, 5], next_page_url := none }
        else { items := [], next_page_url := none })
      { items := [1, 2], next_page_url := some "u2" }
      [{ items := [3], next_page_url := some "u3" },
       { items := [4, 5], next_page_url := none }] 2
      ⟨"u2", rfl, rfl, "u3", rfl, rfl, rfl⟩ (by decide)
    simpa using h

end Pycronofy
